import Mathlib

/-!
Verification of the Binance zh-TC announcement monitor (`main.py`) against its
natural-language specification.

The development shallowly embeds the pipeline of `BinanceZhTcMonitor`:
Python strings are Lean `String`s, the Python `set` of seen ids is a
`Finset String`, the persisted JSON file is a `FileState`, and the
BeautifulSoup element queries of `fetch_announcements` are abstracted into a
`Document` record holding the element lists each DOM query returns (the HTML
parsing itself is external library behaviour); everything downstream of those
queries — the per-element filters, the keyword classifier, the id derivation,
the dedup filter, the link rewriting and the per-cycle persistence — is
translated line by line from the source.

Python's built-in `hash` on strings is salted per process (hash
randomization), so it is modelled as an explicit parameter `pyHash`: within
one process run it is a fixed deterministic function, but two distinct runs
may carry two different functions.
-/

namespace BinanceBot

/-- Model of Python `str.lower()` (byte-wise lowering; CJK characters are
unaffected). -/
def pyLower (s : String) : String := ⟨s.data.map Char.toLower⟩

/-- Model of Python `str.strip()`: drop leading and trailing whitespace. -/
def pyStrip (s : String) : String :=
  ⟨((s.data.dropWhile Char.isWhitespace).reverse.dropWhile Char.isWhitespace).reverse⟩

/-- Model of Python `len` on a string (number of code points). -/
def pyLen (s : String) : Nat := s.data.length

/-- Contiguous-sublist test on character lists; `listSub n h` models the
Python substring test `n in h`. -/
def listSub (needle : List Char) : List Char → Bool
  | [] => needle.isEmpty
  | c :: rest => needle.isPrefixOf (c :: rest) || listSub needle rest

/-- Model of Python `needle in hay` on strings. -/
def pyIn (needle hay : String) : Bool := listSub needle.data hay.data

/-- Model of Python `s.startswith(p)`. -/
def pyStartswith (s p : String) : Bool := p.data.isPrefixOf s.data

/-- The monitor's flat keyword list `self.keywords` (main.py, `__init__`). -/
def keywords : List String :=
  ["上線", "新上線", "即將上線", "開始交易",
   "新增", "支持", "開放", "推出", "啟動",
   "listing", "new trading", "support", "launch"]

/-- `contains_target_keywords` (main.py): empty text is rejected outright,
otherwise every keyword whose lower-casing occurs in the lower-cased text is
collected, and the text is relevant iff that list is non-empty. -/
def contains_target_keywords (text : String) : Bool × List String :=
  if text = "" then (false, [])
  else
    (decide (0 < (keywords.filter fun kw => pyIn (pyLower kw) (pyLower text)).length),
     keywords.filter fun kw => pyIn (pyLower kw) (pyLower text))

/-- State of the persisted seen-store file `seen_announcements.json`. -/
inductive FileState where
  | absent
  | malformed
  | content (ids : List String)
deriving DecidableEq

/-- Outcome of loading the seen store: either a set of ids, or a fatal
startup failure. -/
inductive LoadResult where
  | ok (s : Finset String)
  | fatal
deriving DecidableEq

/-- `load_seen_posts` (main.py): a missing file yields the empty set; a file
that fails to parse is caught by the blanket `except`, logged, and also
yields the empty set (the function never raises); a well-formed JSON array
becomes `set(data)`. -/
def load_seen_posts : FileState → LoadResult
  | .absent => .ok ∅
  | .malformed => .ok ∅
  | .content ids => .ok ids.toFinset

/-- `save_seen_posts` (main.py): the file is rewritten with
`list(self.seen_posts)` serialized as a JSON array; Python enumerates the set
in an arbitrary order, modelled here by one concrete enumeration. -/
def save_seen_posts (seen : Finset String) : FileState :=
  .content (seen.sort (· ≤ ·))

/-- Identifier derivation in `process_announcements` (main.py):
`announcement_id = f"zh_tc_{hash(title)}"`, with `hash` the per-process
string hash. -/
def announcement_id (pyHash : String → Int) (title : String) : String :=
  "zh_tc_" ++ toString (pyHash title)

/-- One admissible per-process instantiation of Python's salted string hash
(run A of the process). -/
def pyHashRunA : String → Int := fun _ => 0

/-- A second admissible per-process instantiation of Python's salted string
hash (run B of the process, started with a different `PYTHONHASHSEED`). -/
def pyHashRunB : String → Int := fun _ => 1

/-- A DOM element as seen by the extraction strategies: its stripped visible
text and its resolved hyperlink target (`""` when none). -/
structure Elem where
  text : String
  href : String
deriving DecidableEq, Repr

/-- A raw text node as seen by strategy 4: the un-stripped node text and the
`href` of its nearest enclosing anchor (`""` when none). -/
structure TextNode where
  raw : String
  href : String
deriving DecidableEq, Repr

/-- The results of the four BeautifulSoup queries in `fetch_announcements`:
anchors whose `href` contains "announcement", heading elements `h1`–`h5`,
`div`s whose class matches the fixed hint substrings, and all text nodes. -/
structure Document where
  announcementLinks : List Elem
  titleElements : List Elem
  contentDivs : List Elem
  textNodes : List TextNode
deriving DecidableEq, Repr

/-- A candidate announcement record as built by `fetch_announcements`. -/
structure Announcement where
  title : String
  link : String
  source : String
  kws : List String
deriving DecidableEq, Repr

/-- Strategy 1 of `fetch_announcements`: the first 20 announcement links,
kept when the text is non-empty and longer than 5. -/
def strategy1 (doc : Document) : List Announcement :=
  (doc.announcementLinks.take 20).filterMap fun e =>
    if e.text ≠ "" ∧ 5 < pyLen e.text then
      some { title := e.text, link := e.href, source := "announcement_link", kws := [] }
    else none

/-- Strategy 2 of `fetch_announcements`: every heading element, kept when the
text is non-empty and longer than 5. -/
def strategy2 (doc : Document) : List Announcement :=
  doc.titleElements.filterMap fun e =>
    if e.text ≠ "" ∧ 5 < pyLen e.text then
      some { title := e.text, link := e.href, source := "title_element", kws := [] }
    else none

/-- Strategy 3 of `fetch_announcements`: the first 15 class-hinted divs, kept
when the text is non-empty and longer than 10. -/
def strategy3 (doc : Document) : List Announcement :=
  (doc.contentDivs.take 15).filterMap fun e =>
    if e.text ≠ "" ∧ 10 < pyLen e.text then
      some { title := e.text, link := e.href, source := "content_div", kws := [] }
    else none

/-- Strategy 4 of `fetch_announcements`: every text node, stripped, kept when
longer than 10 and containing a target keyword. -/
def strategy4 (doc : Document) : List Announcement :=
  doc.textNodes.filterMap fun node =>
    let text_clean := pyStrip node.raw
    if 10 < pyLen text_clean then
      if (contains_target_keywords text_clean).1 then
        some { title := text_clean, link := node.href, source := "keyword_match",
               kws := (contains_target_keywords text_clean).2 }
      else none
    else none

/-- `fetch_announcements` (main.py): all four strategies run unconditionally;
strategies 1–3 append into `announcements`, strategy 4 into
`keyword_matches`, and the function returns `announcements + keyword_matches`. -/
def fetch_announcements (doc : Document) : List Announcement :=
  strategy1 doc ++ strategy2 doc ++ strategy3 doc ++ strategy4 doc

/-- The inline link fix-up of `process_announcements` (main.py): a non-empty
link that does not start with "http" gets the site origin prefixed (with a
separating slash when it is not root-relative). -/
def fix_link (link : String) : String :=
  if link ≠ "" ∧ pyStartswith link "http" = false then
    if pyStartswith link "/" = true then "https://www.binance.com" ++ link
    else "https://www.binance.com/" ++ link
  else link

/-- An alert as built by `process_announcements` (the wall-clock `timestamp`
field is omitted from the model). -/
structure Alert where
  id : String
  title : String
  link : String
  kws : List String
  source : String
deriving DecidableEq, Repr

/-- One iteration of the `for announcement in announcements` loop of
`process_announcements`: strip the title, skip short/empty titles, skip
non-relevant titles, derive the id, and when the id is unseen append the
alert and mark the id seen. -/
def process_step (pyHash : String → Int) (acc : List Alert × Finset String)
    (ann : Announcement) : List Alert × Finset String :=
  if pyStrip ann.title = "" ∨ pyLen (pyStrip ann.title) < 5 then acc
  else if (contains_target_keywords (pyStrip ann.title)).1 then
    if announcement_id pyHash (pyStrip ann.title) ∈ acc.2 then acc
    else
      (acc.1 ++ [{ id := announcement_id pyHash (pyStrip ann.title),
                   title := pyStrip ann.title,
                   link := fix_link ann.link,
                   kws := (contains_target_keywords (pyStrip ann.title)).2,
                   source := ann.source }],
       insert (announcement_id pyHash (pyStrip ann.title)) acc.2)
  else acc

/-- `process_announcements` (main.py): fold the loop body over the extracted
candidates, starting from no alerts and the current `self.seen_posts`;
returns the new alerts and the mutated seen set. -/
def process_announcements (pyHash : String → Int) (seen : Finset String)
    (anns : List Announcement) : List Alert × Finset String :=
  anns.foldl (process_step pyHash) ([], seen)

/-- The monitor's persistent state: the in-memory `self.seen_posts` and the
on-disk seen-store file. -/
structure MonState where
  seen_posts : Finset String
  file : FileState
deriving DecidableEq

/-- Observable outcome of one `run_once` cycle: the new state, the new
alerts, the notification outcomes (one send attempt per alert, in order),
and whether `save_seen_posts` was invoked. -/
structure RunResult where
  state : MonState
  alerts : List Alert
  sends : List Bool
  saved : Bool

/-- `run_once` (main.py): an empty fetch returns early; otherwise the
candidates are processed; when no new alerts were produced nothing is sent
and nothing is saved; otherwise every alert is sent exactly once (failures
are only logged) and the seen store is saved afterwards, independent of the
send outcomes. -/
def run_once (pyHash : String → Int) (notify : Alert → Bool) (st : MonState)
    (anns : List Announcement) : RunResult :=
  if anns = [] then { state := st, alerts := [], sends := [], saved := false }
  else if (process_announcements pyHash st.seen_posts anns).1 = [] then
    { state := { st with seen_posts := (process_announcements pyHash st.seen_posts anns).2 },
      alerts := [], sends := [], saved := false }
  else
    { state := { seen_posts := (process_announcements pyHash st.seen_posts anns).2,
                 file := save_seen_posts (process_announcements pyHash st.seen_posts anns).2 },
      alerts := (process_announcements pyHash st.seen_posts anns).1,
      sends := ((process_announcements pyHash st.seen_posts anns).1).map notify,
      saved := true }

/-- Notifier that fails every send (models Telegram returning non-200). -/
def notifyFail : Alert → Bool := fun _ => false

/-- Notifier that accepts every send. -/
def notifyOk : Alert → Bool := fun _ => true

/-- Fresh monitor state: empty seen set, no file on disk. -/
def st0 : MonState := { seen_posts := ∅, file := .absent }

/-- A one-candidate fetch result used to instantiate the cycle theorems. -/
def annsW : List Announcement :=
  [{ title := "Binance launch ABC Token", link := "/abc",
     source := "announcement_link", kws := [] }]

/-- The alert that processing `annsW` from a fresh state under `pyHashRunA`
produces. -/
def alertW : Alert :=
  { id := "zh_tc_0", title := "Binance launch ABC Token",
    link := "https://www.binance.com/abc", kws := ["launch"],
    source := "announcement_link" }

/-- A document on which strategy 1 finds nothing while strategies 2 and 3
both find a candidate. -/
def docA : Document :=
  { announcementLinks := [],
    titleElements := [{ text := "Binance Will List ABC", href := "" }],
    contentDivs := [{ text := "Some long announcement text body", href := "" }],
    textNodes := [] }

/-- A document on which only strategy 2 finds a candidate. -/
def docB : Document :=
  { announcementLinks := [],
    titleElements := [{ text := "Binance Will List ABC", href := "" }],
    contentDivs := [],
    textNodes := [] }

/-- A candidate that survives both guards of the `process_announcements`
loop: its stripped title is long enough and contains a target keyword. -/
def relevant_candidate (ann : Announcement) : Prop :=
  ¬(pyStrip ann.title = "" ∨ pyLen (pyStrip ann.title) < 5) ∧
  (contains_target_keywords (pyStrip ann.title)).1 = true

theorem isPrefixOf_eq_true_iff (l m : List Char) :
    l.isPrefixOf m = true ↔ ∃ t, l ++ t = m :=
  List.isPrefixOf_iff_prefix

theorem listSub_iff (needle : List Char) :
    ∀ hay : List Char, listSub needle hay = true ↔ ∃ p q, hay = p ++ needle ++ q
  | [] => by
      simp only [listSub, List.isEmpty_iff]
      constructor
      · rintro rfl
        exact ⟨[], [], rfl⟩
      · rintro ⟨p, q, h⟩
        rcases List.append_eq_nil.mp h.symm with ⟨h1, _⟩
        rcases List.append_eq_nil.mp h1 with ⟨_, h2⟩
        exact h2
  | c :: rest => by
      simp only [listSub, Bool.or_eq_true, isPrefixOf_eq_true_iff,
        listSub_iff needle rest]
      constructor
      · rintro (⟨t, ht⟩ | ⟨p, q, rfl⟩)
        · exact ⟨[], t, ht.symm⟩
        · exact ⟨c :: p, q, rfl⟩
      · rintro ⟨p, q, h⟩
        cases p with
        | nil => exact Or.inl ⟨q, h.symm⟩
        | cons p0 ps =>
            injection h with h1 h2
            exact Or.inr ⟨ps, q, h2⟩

/-- Claim C5: a text is judged relevant by `contains_target_keywords` if and
only if at least one configured keyword occurs as a substring of the
lower-cased text, and an empty text is never relevant. -/
theorem relevant_iff_keyword_substring :
    (∀ text : String,
      (contains_target_keywords text).1 = true ↔
        ∃ kw ∈ keywords, ∃ p q, (pyLower text).data = p ++ kw.data ++ q) ∧
    (contains_target_keywords "").1 = false := by
  have hnorm : ∀ kw ∈ keywords, pyLower kw = kw := by decide
  have hne : ∀ kw ∈ keywords, kw.data ≠ [] := by decide
  constructor
  · intro text
    by_cases h0 : text = ""
    · subst h0
      constructor
      · intro h
        exact absurd h (by decide)
      · rintro ⟨kw, hkw, p, q, hpq⟩
        exfalso
        have h0 : p ++ kw.data ++ q = [] := by
          have : (pyLower "").data = [] := rfl
          rw [this] at hpq
          exact hpq.symm
        rcases List.append_eq_nil.mp h0 with ⟨h1, _⟩
        rcases List.append_eq_nil.mp h1 with ⟨_, h2⟩
        exact hne kw hkw h2
    · simp only [contains_target_keywords, if_neg h0]
      rw [decide_eq_true_eq, List.length_pos_iff_exists_mem]
      constructor
      · rintro ⟨kw, hkw⟩
        rw [List.mem_filter] at hkw
        obtain ⟨p, q, hpq⟩ := (listSub_iff _ _).mp hkw.2
        refine ⟨kw, hkw.1, p, q, ?_⟩
        rw [hnorm kw hkw.1] at hpq
        exact hpq
      · rintro ⟨kw, hkw, p, q, hpq⟩
        refine ⟨kw, List.mem_filter.mpr ⟨hkw, (listSub_iff _ _).mpr ?_⟩⟩
        rw [hnorm kw hkw]
        exact ⟨p, q, hpq⟩
  · rfl

/-- Claim C4, counterexample: a text containing only "futures" matches no
keyword at all — there is no secondary keyword list and no Important tier;
"futures" is not even a configured keyword. -/
theorem futures_only_text_not_important :
    pyIn "futures" (pyLower "perpetual futures update notice") = true ∧
    "futures" ∉ keywords ∧
    contains_target_keywords "perpetual futures update notice" = (false, []) := by
  refine ⟨by decide, by decide, by decide⟩

/-- Claim C4, amended: the classifier keeps one flat keyword list and no
priority tiers; any text containing "new trading" is judged relevant, while
a text containing only "futures" matches nothing and is judged non-relevant. -/
theorem flat_keyword_classification :
    (∀ text : String, pyIn "new trading" (pyLower text) = true →
        (contains_target_keywords text).1 = true) ∧
    contains_target_keywords "perpetual futures update notice" = (false, []) ∧
    "futures" ∉ keywords := by
  refine ⟨?_, by decide, by decide⟩
  intro text h
  have h0 : text ≠ "" := by
    intro he
    subst he
    exact absurd h (by decide)
  simp only [contains_target_keywords, if_neg h0]
  rw [decide_eq_true_eq, List.length_pos_iff_exists_mem]
  refine ⟨"new trading", List.mem_filter.mpr ⟨by decide, ?_⟩⟩
  have hl : pyLower "new trading" = "new trading" := by decide
  rw [hl]
  exact h

/-- Witness for the amended C4 theorem at a concrete input. -/
theorem flat_keyword_classification_w :
    (contains_target_keywords "Binance new trading pairs").1 = true :=
  flat_keyword_classification.1 "Binance new trading pairs" (by decide)

/-- Claim C2, counterexample: loading a malformed seen-store file is not a
fatal startup error — the blanket `except` recovers with the empty set. -/
theorem malformed_seen_store_not_fatal :
    load_seen_posts FileState.malformed = LoadResult.ok ∅ ∧
    load_seen_posts FileState.malformed ≠ LoadResult.fatal :=
  ⟨rfl, by decide⟩

/-- Claim C2, amended: loading with the backing file absent returns the
empty set, and loading a malformed backing file is likewise recovered by
returning the empty set (logged, non-fatal). -/
theorem load_missing_or_malformed_empty :
    load_seen_posts FileState.absent = LoadResult.ok ∅ ∧
    load_seen_posts FileState.malformed = LoadResult.ok ∅ :=
  ⟨rfl, rfl⟩

theorem load_save_eq (S : Finset String) :
    load_seen_posts (save_seen_posts S) = LoadResult.ok S := by
  simp only [save_seen_posts, load_seen_posts]
  rw [Finset.sort_toFinset]

/-- Claim C6: persisting any set of string identifiers and loading the
resulting file reproduces the set exactly, including the empty set. -/
theorem seen_store_round_trip (S : Finset String) :
    load_seen_posts (save_seen_posts S) = LoadResult.ok S :=
  load_save_eq S

/-- Claim C1 (code bug): the identifier `f"zh_tc_{hash(title)}"` is built
from Python's per-process salted string hash, so two process runs may derive
different identifiers for the same title; after persisting run A's seen set
and reloading it, run B's identifier for the very same text is not a member,
so `isNew(id(T))` is true again and the item re-alerts. -/
theorem cross_run_id_not_stable :
    announcement_id pyHashRunA "Binance Will List XYZ" ≠
      announcement_id pyHashRunB "Binance Will List XYZ" ∧
    load_seen_posts (save_seen_posts {announcement_id pyHashRunA "Binance Will List XYZ"}) =
      LoadResult.ok {announcement_id pyHashRunA "Binance Will List XYZ"} ∧
    announcement_id pyHashRunB "Binance Will List XYZ" ∉
      ({announcement_id pyHashRunA "Binance Will List XYZ"} : Finset String) :=
  ⟨by decide, load_save_eq _, by decide⟩

/-- Claim C3, counterexample: strategies do not short-circuit — on a document
where strategy 1 yields nothing and strategy 2 yields a candidate, the
extraction output still contains strategy 3's candidates, so it differs from
strategy 2's output. -/
theorem extraction_does_not_short_circuit :
    strategy1 docA = [] ∧ strategy2 docA ≠ [] ∧
    fetch_announcements docA ≠ strategy2 docA := by
  refine ⟨by decide, by decide, by decide⟩

/-- Claim C3, amended: all four strategies always run and their candidate
lists are concatenated in declared order; when strategies 1, 3 and 4 each
yield zero candidates, the output equals strategy 2's output exactly. -/
theorem extraction_concatenates (d : Document) (h1 : strategy1 d = [])
    (h3 : strategy3 d = []) (h4 : strategy4 d = []) :
    fetch_announcements d = strategy2 d := by
  simp [fetch_announcements, h1, h3, h4]

/-- Witness for the amended C3 theorem at a concrete document. -/
theorem extraction_concatenates_w :
    fetch_announcements docB = strategy2 docB ∧ strategy2 docB ≠ [] :=
  ⟨extraction_concatenates docB (by decide) (by decide) (by decide), by decide⟩

theorem step_seen_subset (pyHash : String → Int) (acc : List Alert × Finset String)
    (ann : Announcement) : acc.2 ⊆ (process_step pyHash acc ann).2 := by
  unfold process_step
  split
  · exact Finset.Subset.refl _
  · split
    · split
      · exact Finset.Subset.refl _
      · exact Finset.subset_insert _ _
    · exact Finset.Subset.refl _

theorem foldl_seen_subset (pyHash : String → Int) (anns : List Announcement) :
    ∀ acc, acc.2 ⊆ (anns.foldl (process_step pyHash) acc).2 := by
  induction anns with
  | nil => exact fun acc => Finset.Subset.refl _
  | cons a t ih =>
      intro acc
      exact Finset.Subset.trans (step_seen_subset pyHash acc a)
        (ih (process_step pyHash acc a))

theorem step_marks_id (pyHash : String → Int) (acc : List Alert × Finset String)
    (ann : Announcement) (hrel : relevant_candidate ann) :
    announcement_id pyHash (pyStrip ann.title) ∈ (process_step pyHash acc ann).2 := by
  unfold process_step
  rw [if_neg hrel.1, if_pos hrel.2]
  by_cases hm : announcement_id pyHash (pyStrip ann.title) ∈ acc.2
  · rw [if_pos hm]
    exact hm
  · rw [if_neg hm]
    exact Finset.mem_insert_self _ _

theorem foldl_marks_ids (pyHash : String → Int) (anns : List Announcement) :
    ∀ acc, ∀ ann ∈ anns, relevant_candidate ann →
      announcement_id pyHash (pyStrip ann.title) ∈
        (anns.foldl (process_step pyHash) acc).2 := by
  induction anns with
  | nil => intro acc ann h; cases h
  | cons a t ih =>
      intro acc ann hmem hrel
      rw [List.foldl_cons]
      cases hmem with
      | head => exact foldl_seen_subset pyHash t _ (step_marks_id pyHash acc a hrel)
      | tail _ hmem => exact ih (process_step pyHash acc a) ann hmem hrel

theorem step_noop (pyHash : String → Int) (acc : List Alert × Finset String)
    (ann : Announcement)
    (h : relevant_candidate ann → announcement_id pyHash (pyStrip ann.title) ∈ acc.2) :
    process_step pyHash acc ann = acc := by
  unfold process_step
  by_cases h1 : pyStrip ann.title = "" ∨ pyLen (pyStrip ann.title) < 5
  · rw [if_pos h1]
  · rw [if_neg h1]
    by_cases h2 : (contains_target_keywords (pyStrip ann.title)).1 = true
    · rw [if_pos h2, if_pos (h ⟨h1, h2⟩)]
    · rw [if_neg h2]

theorem foldl_noop (pyHash : String → Int) (anns : List Announcement) :
    ∀ acc, (∀ ann ∈ anns, relevant_candidate ann →
        announcement_id pyHash (pyStrip ann.title) ∈ acc.2) →
      anns.foldl (process_step pyHash) acc = acc := by
  induction anns with
  | nil => intro acc _; rfl
  | cons a t ih =>
      intro acc hall
      rw [List.foldl_cons, step_noop pyHash acc a (hall a (List.mem_cons_self a t))]
      exact ih acc fun ann h hr => hall ann (List.mem_cons_of_mem a h) hr

theorem process_repoll (pyHash : String → Int) (seen : Finset String)
    (anns : List Announcement) :
    process_announcements pyHash (process_announcements pyHash seen anns).2 anns =
      ([], (process_announcements pyHash seen anns).2) := by
  unfold process_announcements
  exact foldl_noop pyHash anns ([], _) fun ann hmem hrel =>
    foldl_marks_ids pyHash anns ([], seen) ann hmem hrel

theorem run_once_state_seen (pyHash : String → Int) (notify : Alert → Bool)
    (st : MonState) (anns : List Announcement) (h : anns ≠ []) :
    (run_once pyHash notify st anns).state.seen_posts =
      (process_announcements pyHash st.seen_posts anns).2 := by
  unfold run_once
  rw [if_neg h]
  by_cases h2 : (process_announcements pyHash st.seen_posts anns).1 = []
  · rw [if_pos h2]
  · rw [if_neg h2]

theorem run_once_repoll (pyHash : String → Int) (n1 n2 : Alert → Bool)
    (st : MonState) (anns : List Announcement) :
    (run_once pyHash n2 (run_once pyHash n1 st anns).state anns).alerts = [] := by
  by_cases h : anns = []
  · subst h
    simp [run_once]
  · have hseen := run_once_state_seen pyHash n1 st anns h
    set st1 := (run_once pyHash n1 st anns).state with hst1
    have h2 : process_announcements pyHash st1.seen_posts anns =
        ([], st1.seen_posts) := by
      rw [hseen]
      exact process_repoll pyHash st.seen_posts anns
    unfold run_once
    rw [if_neg h, h2]
    simp

/-- Claim C7: re-polling the same extracted candidate list in the next cycle
of the same process run produces zero new alerts, because every relevant
candidate's identifier was marked seen during the first cycle. -/
theorem second_cycle_no_alerts (pyHash : String → Int) (notify : Alert → Bool)
    (st : MonState) (anns : List Announcement) :
    (run_once pyHash notify (run_once pyHash notify st anns).state anns).alerts = [] :=
  run_once_repoll pyHash notify notify st anns

theorem step_alert_ids (pyHash : String → Int) (acc : List Alert × Finset String)
    (ann : Announcement)
    (hacc : ∀ alert ∈ acc.1, alert.id ∈ acc.2) :
    ∀ alert ∈ (process_step pyHash acc ann).1,
      alert.id ∈ (process_step pyHash acc ann).2 := by
  unfold process_step
  by_cases h1 : pyStrip ann.title = "" ∨ pyLen (pyStrip ann.title) < 5
  · rw [if_pos h1]
    exact hacc
  · rw [if_neg h1]
    by_cases h2 : (contains_target_keywords (pyStrip ann.title)).1 = true
    · rw [if_pos h2]
      by_cases h3 : announcement_id pyHash (pyStrip ann.title) ∈ acc.2
      · rw [if_pos h3]
        exact hacc
      · rw [if_neg h3]
        intro alert hmem
        rcases List.mem_append.mp hmem with hm | hm
        · exact Finset.mem_insert_of_mem (hacc alert hm)
        · rw [List.mem_singleton] at hm
          subst hm
          exact Finset.mem_insert_self _ _
    · rw [if_neg h2]
      exact hacc

theorem foldl_alert_ids (pyHash : String → Int) (anns : List Announcement) :
    ∀ acc, (∀ alert ∈ acc.1, alert.id ∈ acc.2) →
      ∀ alert ∈ (anns.foldl (process_step pyHash) acc).1,
        alert.id ∈ (anns.foldl (process_step pyHash) acc).2 := by
  induction anns with
  | nil => intro acc hacc; exact hacc
  | cons a t ih =>
      intro acc hacc
      rw [List.foldl_cons]
      exact ih _ (step_alert_ids pyHash acc a hacc)

theorem run_once_alert_ids (pyHash : String → Int) (notify : Alert → Bool)
    (st : MonState) (anns : List Announcement) :
    ∀ alert ∈ (run_once pyHash notify st anns).alerts,
      alert.id ∈ (run_once pyHash notify st anns).state.seen_posts := by
  unfold run_once
  by_cases h : anns = []
  · rw [if_pos h]
    intro alert hmem
    exact absurd hmem (List.not_mem_nil alert)
  · rw [if_neg h]
    by_cases h2 : (process_announcements pyHash st.seen_posts anns).1 = []
    · rw [if_pos h2]
      intro alert hmem
      exact absurd hmem (List.not_mem_nil alert)
    · rw [if_neg h2]
      intro alert hmem
      exact foldl_alert_ids pyHash anns ([], st.seen_posts)
        (fun a ha => absurd ha (List.not_mem_nil a)) alert hmem

/-- Claim C8: with a notifier that fails every send, each emitted alert's
identifier is still in the resulting seen set, every alert gets exactly one
send attempt (the cycle proceeds past failures), and the same candidates are
never re-offered in a subsequent cycle, whatever notifier it uses. -/
theorem failed_send_keeps_seen_mark (pyHash : String → Int) (st : MonState)
    (anns : List Announcement) :
    (∀ alert ∈ (run_once pyHash notifyFail st anns).alerts,
        alert.id ∈ (run_once pyHash notifyFail st anns).state.seen_posts) ∧
    (run_once pyHash notifyFail st anns).sends.length =
      (run_once pyHash notifyFail st anns).alerts.length ∧
    ∀ notify2 : Alert → Bool,
      (run_once pyHash notify2 (run_once pyHash notifyFail st anns).state anns).alerts = [] := by
  refine ⟨run_once_alert_ids pyHash notifyFail st anns, ?_,
    fun n2 => run_once_repoll pyHash notifyFail n2 st anns⟩
  unfold run_once
  by_cases h : anns = []
  · rw [if_pos h]
    rfl
  · rw [if_neg h]
    by_cases h2 : (process_announcements pyHash st.seen_posts anns).1 = []
    · rw [if_pos h2]
      rfl
    · rw [if_neg h2]
      exact List.length_map _ _

/-- Witness for the C8 theorem at a concrete failing cycle. -/
theorem failed_send_keeps_seen_mark_w :
    alertW.id ∈ (run_once pyHashRunA notifyFail st0 annsW).state.seen_posts ∧
    (run_once pyHashRunA notifyOk
        (run_once pyHashRunA notifyFail st0 annsW).state annsW).alerts = [] :=
  ⟨(failed_send_keeps_seen_mark pyHashRunA st0 annsW).1 alertW (by decide),
   (failed_send_keeps_seen_mark pyHashRunA st0 annsW).2.2 notifyOk⟩

/-- Claim C9: the seen-store file is rewritten by a cycle exactly when the
cycle produced at least one new alert, and a cycle with zero new alerts
leaves the on-disk file unchanged. -/
theorem save_iff_alerts (pyHash : String → Int) (notify : Alert → Bool)
    (st : MonState) (anns : List Announcement) :
    ((run_once pyHash notify st anns).saved = true ↔
      (run_once pyHash notify st anns).alerts ≠ []) ∧
    ((run_once pyHash notify st anns).alerts = [] →
      (run_once pyHash notify st anns).state.file = st.file) := by
  unfold run_once
  by_cases h : anns = []
  · rw [if_pos h]
    exact ⟨by simp, fun _ => rfl⟩
  · rw [if_neg h]
    by_cases h2 : (process_announcements pyHash st.seen_posts anns).1 = []
    · rw [if_pos h2]
      exact ⟨by simp, fun _ => rfl⟩
    · rw [if_neg h2]
      exact ⟨⟨fun _ => h2, fun _ => rfl⟩, fun hc => absurd hc h2⟩

/-- Witness for the C9 theorem: a cycle with zero alerts leaves the file
unchanged. -/
theorem save_iff_alerts_w :
    (run_once pyHashRunA notifyFail st0 []).state.file = st0.file :=
  (save_iff_alerts pyHashRunA notifyFail st0 []).2 rfl

theorem fix_link_spec (l : String) :
    fix_link l = "" ∨ pyStartswith (fix_link l) "http" = true := by
  unfold fix_link
  by_cases h1 : l ≠ "" ∧ pyStartswith l "http" = false
  · rw [if_pos h1]
    right
    by_cases h2 : pyStartswith l "/" = true
    · rw [if_pos h2]
      show ("http".data).isPrefixOf ("https://www.binance.com" ++ l).data = true
      refine (isPrefixOf_eq_true_iff _ _).mpr ⟨"s://www.binance.com".data ++ l.data, ?_⟩
      rw [String.data_append, ← List.append_assoc]
      rfl
    · rw [if_neg h2]
      show ("http".data).isPrefixOf ("https://www.binance.com/" ++ l).data = true
      refine (isPrefixOf_eq_true_iff _ _).mpr ⟨"s://www.binance.com/".data ++ l.data, ?_⟩
      rw [String.data_append, ← List.append_assoc]
      rfl
  · rw [if_neg h1]
    by_cases he : l = ""
    · exact Or.inl he
    · right
      cases hb : pyStartswith l "http"
      · exact absurd ⟨he, hb⟩ h1
      · rfl

theorem step_alert_links (pyHash : String → Int) (acc : List Alert × Finset String)
    (ann : Announcement)
    (hacc : ∀ alert ∈ acc.1, alert.link = "" ∨ pyStartswith alert.link "http" = true) :
    ∀ alert ∈ (process_step pyHash acc ann).1,
      alert.link = "" ∨ pyStartswith alert.link "http" = true := by
  unfold process_step
  by_cases h1 : pyStrip ann.title = "" ∨ pyLen (pyStrip ann.title) < 5
  · rw [if_pos h1]
    exact hacc
  · rw [if_neg h1]
    by_cases h2 : (contains_target_keywords (pyStrip ann.title)).1 = true
    · rw [if_pos h2]
      by_cases h3 : announcement_id pyHash (pyStrip ann.title) ∈ acc.2
      · rw [if_pos h3]
        exact hacc
      · rw [if_neg h3]
        intro alert hmem
        rcases List.mem_append.mp hmem with hm | hm
        · exact hacc alert hm
        · rw [List.mem_singleton] at hm
          subst hm
          exact fix_link_spec ann.link
    · rw [if_neg h2]
      exact hacc

theorem foldl_alert_links (pyHash : String → Int) (anns : List Announcement) :
    ∀ acc, (∀ alert ∈ acc.1, alert.link = "" ∨ pyStartswith alert.link "http" = true) →
      ∀ alert ∈ (anns.foldl (process_step pyHash) acc).1,
        alert.link = "" ∨ pyStartswith alert.link "http" = true := by
  induction anns with
  | nil => intro acc hacc; exact hacc
  | cons a t ih =>
      intro acc hacc
      rw [List.foldl_cons]
      exact ih _ (step_alert_links pyHash acc a hacc)

/-- Claim C10: every alert built by `process_announcements` has a link that
is either empty or begins with "http" — any non-empty relative link was
rewritten with the site origin before the alert was created. -/
theorem alert_links_absolute (pyHash : String → Int) (seen : Finset String)
    (anns : List Announcement) :
    ∀ alert ∈ (process_announcements pyHash seen anns).1,
      alert.link = "" ∨ pyStartswith alert.link "http" = true :=
  foldl_alert_links pyHash anns ([], seen) fun a ha =>
    absurd ha (List.not_mem_nil a)

/-- Witness for the C10 theorem at a concrete relative-link candidate. -/
theorem alert_links_absolute_w :
    alertW.link = "" ∨ pyStartswith alertW.link "http" = true :=
  alert_links_absolute pyHashRunA ∅ annsW alertW (by decide)

end BinanceBot
